import Mathlib

/-!
Verification of the cex-arbitrage spread-calculation engine and its symbol
normalization against a shallow Lean embedding of the Go sources.

Modelling conventions:
* Go `float64` prices/rates are embedded as exact rationals (`ℚ`); all of the
  verified claims concern control flow, guards and formulas, none of which
  depend on rounding.
* Go `map` values are embedded as association lists carrying an explicit
  iteration (enumeration) order; Go guarantees unique keys, which appears as a
  `Nodup` hypothesis where a proof needs it.  Go map indexing (zero value on a
  missing key) is `mapIndex` below.
* Go `(value, error)` returns are embedded as `Except`; `(value, ok)` lookups
  as `Option`.
* Go strings are embedded as Lean `String`s; the byte-level operations used by
  the adapters (`strings.HasSuffix`, `strings.TrimSuffix`) act on ASCII
  suffixes, for which character-level and byte-level semantics agree.
-/

namespace shared

/-- Embeds `shared.TickerBidAsk` (src/shared/types.go): unified ticker with bid
and ask prices. -/
structure TickerBidAsk where
  Symbol : String
  UnifiedSymbol : String
  Bid : ℚ
  Ask : ℚ
  VolumeUSD : ℚ
deriving DecidableEq, Repr

/-- Embeds `shared.FundingRateInfo` (src/shared/types.go): standardized funding
rate information. -/
structure FundingRateInfo where
  Rate : ℚ
  Interval : ℤ
  NextSettleTime : ℤ
deriving DecidableEq, Repr

/-- Embeds the sentinel errors of src/shared/types.go. -/
inductive GoError where
  | ErrInvalidUnifiedSymbol
  | ErrUnsupportedQuoteCurrency
deriving DecidableEq, Repr

end shared

namespace arbitrage

/-- Embeds the `Spread` struct of src/arbitrage/calculator.go.  The
`FundingSpread8h *float64` pointer field is embedded as `Option ℚ` (a nil
pointer is `none`); this version of the calculator never sets it. -/
structure Spread where
  UnifiedSymbol : String
  ExchangeShort : String
  ExchangeLong : String
  EntrySpread : ℚ
  OpenDiff : ℚ
  ExitSpread : ℚ
  ExitDiff : ℚ
  FundingSpread8h : Option ℚ
deriving DecidableEq, Repr

/-- The price table `map[symbol]map[exchangeName]Ticker`, embedded as an
association list with an explicit enumeration order (Go map iteration order is
randomized, so the order is an input of the embedding, not a fixed choice). -/
abbrev PriceTable := List (String × List (String × shared.TickerBidAsk))

/-- Go map indexing `exchangeData[name]`: the bound value, or the zero value
`TickerBidAsk{}` when the key is missing. -/
def mapIndex (exchangeData : List (String × shared.TickerBidAsk)) (name : String) :
    shared.TickerBidAsk :=
  match exchangeData.find? (fun e => e.1 == name) with
  | some e => e.2
  | none => { Symbol := "", UnifiedSymbol := "", Bid := 0, Ask := 0, VolumeUSD := 0 }

/-- Entry spread of lines 52-59 of src/arbitrage/calculator.go:
`openDiff := tickerA.Bid - tickerB.Ask`; zero unless `openDiff > 0` and the
average open price is positive, otherwise `(openDiff / openAvgPrice) * 100`. -/
def entrySpreadCalc (tickerA tickerB : shared.TickerBidAsk) : ℚ :=
  let openDiff := tickerA.Bid - tickerB.Ask
  if openDiff > 0 then
    let openAvgPrice := (tickerA.Bid + tickerB.Ask) / 2
    if openAvgPrice > 0 then openDiff / openAvgPrice * 100 else 0
  else 0

/-- Exit spread of lines 61-69 of src/arbitrage/calculator.go:
`exitDiff := tickerB.Bid - tickerA.Ask`, divided by the average exit price when
that average is positive, regardless of the sign of `exitDiff`. -/
def exitSpreadCalc (tickerA tickerB : shared.TickerBidAsk) : ℚ :=
  let exitDiff := tickerB.Bid - tickerA.Ask
  let exitAvgPrice := (tickerB.Bid + tickerA.Ask) / 2
  if exitAvgPrice > 0 then exitDiff / exitAvgPrice * 100 else 0

/-- Loop body of lines 51-82 of src/arbitrage/calculator.go for one ordered
exchange pair: the emitted record (a singleton list) when `entrySpread > 0`,
nothing otherwise. -/
def pairSpread (symbol exchangeA exchangeB : String)
    (tickerA tickerB : shared.TickerBidAsk) : List Spread :=
  if entrySpreadCalc tickerA tickerB > 0 then
    [{ UnifiedSymbol := symbol
       ExchangeShort := exchangeA
       ExchangeLong := exchangeB
       EntrySpread := entrySpreadCalc tickerA tickerB
       OpenDiff := tickerA.Bid - tickerB.Ask
       ExitSpread := exitSpreadCalc tickerA tickerB
       ExitDiff := tickerB.Bid - tickerA.Ask
       FundingSpread8h := none }]
  else []

/-- Lines 27-85 of src/arbitrage/calculator.go for one symbol: skip symbols
with fewer than two exchanges, collect the exchange names, and run the double
loop over ordered index pairs `(i, j)` with `i ≠ j`, indexing the exchange map
by name exactly as the source does. -/
def symbolSpreads (symbol : String)
    (exchangeData : List (String × shared.TickerBidAsk)) : List Spread :=
  if exchangeData.length < 2 then []
  else
    let exchanges := exchangeData.map Prod.fst
    (List.range exchanges.length).flatMap fun i =>
      (List.range exchanges.length).flatMap fun j =>
        if i = j then []
        else
          pairSpread symbol (exchanges.getD i "") (exchanges.getD j "")
            (mapIndex exchangeData (exchanges.getD i ""))
            (mapIndex exchangeData (exchanges.getD j ""))

/-- Sort order of lines 87-90 of src/arbitrage/calculator.go: descending by
`EntrySpread`. -/
def spreadOrder (s1 s2 : Spread) : Prop := s2.EntrySpread ≤ s1.EntrySpread

instance : DecidableRel spreadOrder := fun s1 s2 =>
  inferInstanceAs (Decidable (s2.EntrySpread ≤ s1.EntrySpread))

/-- Embeds `CalculateSpreads` of src/arbitrage/calculator.go: per-symbol pair
spreads over the whole table, then sorted descending by entry spread.
`sort.Slice` guarantees a permutation sorted by the comparison; the embedding
realizes it with (stable) insertion sort. -/
def CalculateSpreads (tickers : PriceTable) : List Spread :=
  let spreads := tickers.flatMap fun p => symbolSpreads p.1 p.2
  spreads.insertionSort spreadOrder

/-- Modelled from the spec: the optional minimum-spread threshold filter of
§4.2 step 6 / §6 configuration (`spreadThresholdPct: optional float`); no Go
code in the repository implements it (it appears only in the Rust design
sketch's `filter(col("entry_spread").gt_eq(filters.spread_threshold))`).  When
the configuration value is set, every opportunity whose `EntrySpread` is below
the threshold is dropped; when it is absent, nothing is filtered. -/
def applyThresholdFilter (spreadThresholdPct : Option ℚ) (spreads : List Spread) :
    List Spread :=
  match spreadThresholdPct with
  | none => spreads
  | some t => spreads.filter fun sp => t ≤ sp.EntrySpread

end arbitrage

namespace adapters

/-- Embeds `BinanceFundingRateDto` (src/unnamed/part_006 dependencies): the
combined Binance funding rate entry.  `LastFundingRate` is kept as the raw
decimal string, exactly as Binance delivers it and the Go struct stores it. -/
structure BinanceFundingRateDto where
  Symbol : String
  LastFundingRate : String
  NextFundingTime : ℤ
  FundingIntervalHours : ℤ
deriving DecidableEq, Repr

/-- Embeds `MexcFundingRateDto`: the Mexc funding rate entry. -/
structure MexcFundingRateDto where
  Symbol : String
  FundingRate : ℚ
  NextSettleTime : ℤ
  CollectCycle : ℤ
deriving DecidableEq, Repr

end adapters

/-- Accumulates a decimal digit string into a natural number; `none` when a
non-digit occurs.  (The empty string accumulates to `0`.) -/
def foldDigits (cs : List Char) : Option ℕ :=
  cs.foldlM (fun acc c => if c.isDigit then some (acc * 10 + (c.toNat - 48)) else none) 0

/-- Models Go `strconv.ParseFloat(s, 64)` on plain decimal notation (optional
sign, integer digits, optional fraction), returning the exact rational value:
the only shapes exchange funding-rate strings take.  Exponent notation and the
other more exotic forms `ParseFloat` accepts are rejected here; the claims
settled against this model depend only on success/failure of parsing and on
the parsed value of plain decimals. -/
def parseDecimal (s : String) : Option ℚ :=
  let core : List Char → Option ℚ := fun cs =>
    let ip := cs.takeWhile fun c => c ≠ '.'
    let rest := cs.dropWhile fun c => c ≠ '.'
    let fp : Option (List Char) :=
      match rest with
      | [] => some []
      | c :: r => if c = '.' ∧ ¬ r.contains '.' then some r else none
    match fp with
    | none => none
    | some fr =>
      if ip.isEmpty && fr.isEmpty then none
      else
        match foldDigits ip, foldDigits fr with
        | some a, some b => some ((a : ℚ) + (b : ℚ) / (10 : ℚ) ^ fr.length)
        | _, _ => none
  match s.toList with
  | '-' :: cs => (core cs).map fun q => -q
  | '+' :: cs => core cs
  | cs => core cs

namespace arbitrageF

/-- Embeds the `Spread` struct of src/unnamed/part_006: the funding-enabled
calculator's record, with optional funding fields (nil pointers are `none`). -/
structure Spread where
  UnifiedSymbol : String
  ExchangeShort : String
  ExchangeLong : String
  EntrySpread : ℚ
  OpenDiff : ℚ
  ExitSpread : ℚ
  ExitDiff : ℚ
  FundingSpread8h : Option ℚ
  FundingRateShort : Option shared.FundingRateInfo
  FundingRateLong : Option shared.FundingRateInfo
deriving DecidableEq, Repr

/-- Embeds `getFundingRateInfo` of src/unnamed/part_006 (lines 117-147):
standardized funding info for `(unifiedSymbol, exchangeName)`.  The Go
`(*FundingRateInfo, bool)` return is `Option`: every `false` return pairs a
nil pointer in the source.  A Binance rate string that fails to parse yields
`none` (the source logs and returns `nil, false`). -/
def getFundingRateInfo (unifiedSymbol exchangeName : String)
    (binanceFundingRates : List (String × adapters.BinanceFundingRateDto))
    (mexcFundingRates : List (String × adapters.MexcFundingRateDto)) :
    Option shared.FundingRateInfo :=
  if exchangeName = "Binance" then
    match binanceFundingRates.lookup unifiedSymbol with
    | some dto =>
      match parseDecimal dto.LastFundingRate with
      | some r =>
        some { Rate := r
               Interval := dto.FundingIntervalHours
               NextSettleTime := dto.NextFundingTime }
      | none => none
    | none => none
  else if exchangeName = "Mexc" then
    match mexcFundingRates.lookup unifiedSymbol with
    | some dto =>
      some { Rate := dto.FundingRate
             Interval := dto.CollectCycle
             NextSettleTime := dto.NextSettleTime }
    | none => none
  else none

/-- Funding block of lines 76-87 of src/unnamed/part_006: present only when
both sides were found and both intervals are positive, in which case
`pnlShort = +1 * rate * (8/interval)`, `pnlLong = -1 * rate * (8/interval)`
and the spread is `(pnlShort + pnlLong) * 100`. -/
def fundingSpread8hCalc (fundingInfoA fundingInfoB : Option shared.FundingRateInfo) :
    Option ℚ :=
  match fundingInfoA, fundingInfoB with
  | some a, some b =>
    if 0 < a.Interval ∧ 0 < b.Interval then
      some ((1 * a.Rate * (8 / (a.Interval : ℚ)) + -1 * b.Rate * (8 / (b.Interval : ℚ))) * 100)
    else none
  | _, _ => none

/-- Loop body of lines 52-103 of src/unnamed/part_006 for one ordered exchange
pair, including the funding lookups for the two sides. -/
def pairSpread (symbol exchangeA exchangeB : String)
    (tickerA tickerB : shared.TickerBidAsk)
    (binanceFundingRates : List (String × adapters.BinanceFundingRateDto))
    (mexcFundingRates : List (String × adapters.MexcFundingRateDto)) : List Spread :=
  let fundingInfoA := getFundingRateInfo symbol exchangeA binanceFundingRates mexcFundingRates
  let fundingInfoB := getFundingRateInfo symbol exchangeB binanceFundingRates mexcFundingRates
  if arbitrage.entrySpreadCalc tickerA tickerB > 0 then
    [{ UnifiedSymbol := symbol
       ExchangeShort := exchangeA
       ExchangeLong := exchangeB
       EntrySpread := arbitrage.entrySpreadCalc tickerA tickerB
       OpenDiff := tickerA.Bid - tickerB.Ask
       ExitSpread := arbitrage.exitSpreadCalc tickerA tickerB
       ExitDiff := tickerB.Bid - tickerA.Ask
       FundingSpread8h := fundingSpread8hCalc fundingInfoA fundingInfoB
       FundingRateShort := fundingInfoA
       FundingRateLong := fundingInfoB }]
  else []

/-- Sort order of lines 108-111 of src/unnamed/part_006: descending by
`EntrySpread`. -/
def spreadOrder (s1 s2 : Spread) : Prop := s2.EntrySpread ≤ s1.EntrySpread

instance : DecidableRel spreadOrder := fun s1 s2 =>
  inferInstanceAs (Decidable (s2.EntrySpread ≤ s1.EntrySpread))

/-- Embeds `CalculateSpreads` of src/unnamed/part_006 (funding-enabled): same
pair enumeration as src/arbitrage/calculator.go, plus funding lookups, then
the descending sort. -/
def CalculateSpreads (tickers : arbitrage.PriceTable)
    (binanceFundingRates : List (String × adapters.BinanceFundingRateDto))
    (mexcFundingRates : List (String × adapters.MexcFundingRateDto)) : List Spread :=
  let spreads := tickers.flatMap fun p =>
    if p.2.length < 2 then []
    else
      let exchanges := p.2.map Prod.fst
      (List.range exchanges.length).flatMap fun i =>
        (List.range exchanges.length).flatMap fun j =>
          if i = j then []
          else
            pairSpread p.1 (exchanges.getD i "") (exchanges.getD j "")
              (arbitrage.mapIndex p.2 (exchanges.getD i ""))
              (arbitrage.mapIndex p.2 (exchanges.getD j ""))
              binanceFundingRates mexcFundingRates
  spreads.insertionSort spreadOrder

end arbitrageF

namespace adapters

/-- Embeds Go `strings.HasSuffix(s, suff)`.  Both adapters only test ASCII
suffixes, for which Go's byte-level test coincides with this character-level
one. -/
def HasSuffix (s suff : String) : Bool := decide (suff.toList <:+ s.toList)

/-- Embeds Go `strings.TrimSuffix(s, suff)`: `s` without the trailing `suff`
when present, `s` unchanged otherwise. -/
def TrimSuffix (s suff : String) : String :=
  if HasSuffix s suff then String.mk (s.toList.take (s.toList.length - suff.toList.length))
  else s

/-- Embeds `UnwrapBinanceSymbol` (src/adapters/binance_adapter.go lines
208-214): `"BTCUSDT" ↦ "BTC/USDT:PERP"`, failing with
`ErrUnsupportedQuoteCurrency` when the symbol does not end in `"USDT"`. -/
def UnwrapBinanceSymbol (binanceSymbol : String) : Except shared.GoError String :=
  if HasSuffix binanceSymbol "USDT" = false then
    Except.error shared.GoError.ErrUnsupportedQuoteCurrency
  else
    let base := TrimSuffix binanceSymbol "USDT"
    Except.ok (base ++ "/USDT:PERP")

/-- Embeds `UnwrapMexcSymbol` (src/adapters/mexc_adapter.go lines 169-175):
`"BTC_USDT" ↦ "BTC/USDT:PERP"`, failing with `ErrUnsupportedQuoteCurrency`
when the symbol does not end in `"_USDT"`. -/
def UnwrapMexcSymbol (mexcSymbol : String) : Except shared.GoError String :=
  if HasSuffix mexcSymbol "_USDT" = false then
    Except.error shared.GoError.ErrUnsupportedQuoteCurrency
  else
    let base := TrimSuffix mexcSymbol "_USDT"
    Except.ok (base ++ "/USDT:PERP")

/-- Modelled from the spec: the canonical `BASE/QUOTE:PERP` unified-symbol
grammar of §3/§4.1 — "two `/`-separated parts, second part `QUOTE:PERP`" —
with nonempty `BASE` and `QUOTE` tokens.  No Go code in the repository defines
this grammar (only `wrap`, absent from the sources, is specified to check
it). -/
def IsValidUnifiedSymbol (unifiedSymbol : String) : Bool :=
  match unifiedSymbol.toList.splitOn '/' with
  | [base, rest] =>
    !base.isEmpty && decide (":PERP".toList <:+ rest) &&
      !(rest.take (rest.length - 5)).isEmpty
  | _ => false

/-- Modelled from the spec: `wrap(UnifiedSymbol) -> exchangeSymbol` for
Binance (§4.1), absent from the Go sources.  It fails with
`ErrInvalidUnifiedSymbol` ("InvalidUnifiedSymbolFormat") unless the input
matches the canonical `BASE/QUOTE:PERP` grammar exactly, and otherwise
restores the Binance form `BASEQUOTE`. -/
def WrapBinanceSymbol (unifiedSymbol : String) : Except shared.GoError String :=
  match unifiedSymbol.toList.splitOn '/' with
  | [base, rest] =>
    if ¬ base.isEmpty ∧ ":PERP".toList <:+ rest ∧ ¬ (rest.take (rest.length - 5)).isEmpty then
      Except.ok (String.mk (base ++ rest.take (rest.length - 5)))
    else Except.error shared.GoError.ErrInvalidUnifiedSymbol
  | _ => Except.error shared.GoError.ErrInvalidUnifiedSymbol

/-- Modelled from the spec: `wrap(UnifiedSymbol) -> exchangeSymbol` for Mexc
(§4.1), absent from the Go sources; same grammar check, restoring the Mexc
form `BASE_QUOTE`. -/
def WrapMexcSymbol (unifiedSymbol : String) : Except shared.GoError String :=
  match unifiedSymbol.toList.splitOn '/' with
  | [base, rest] =>
    if ¬ base.isEmpty ∧ ":PERP".toList <:+ rest ∧ ¬ (rest.take (rest.length - 5)).isEmpty then
      Except.ok (String.mk (base ++ '_' :: rest.take (rest.length - 5)))
    else Except.error shared.GoError.ErrInvalidUnifiedSymbol
  | _ => Except.error shared.GoError.ErrInvalidUnifiedSymbol

end adapters

namespace arbitrage

/-- The ordered index pairs evaluated by the double loop of lines 39-50 of
src/arbitrage/calculator.go for one symbol: every `(exchanges[i], exchanges[j])`
with `i ≠ j`, independent of whether the pair is emitted. -/
def evaluatedPairs (exchangeData : List (String × shared.TickerBidAsk)) :
    List (String × String) :=
  let exchanges := exchangeData.map Prod.fst
  (List.range exchanges.length).flatMap fun i =>
    (List.range exchanges.length).flatMap fun j =>
      if i = j then [] else [(exchanges.getD i "", exchanges.getD j "")]

instance : IsTotal Spread spreadOrder :=
  ⟨fun a b => le_total b.EntrySpread a.EntrySpread⟩

instance : IsTrans Spread spreadOrder :=
  ⟨fun _ _ _ h1 h2 => le_trans h2 h1⟩

end arbitrage

namespace arbitrageF

instance : IsTotal Spread spreadOrder :=
  ⟨fun a b => le_total b.EntrySpread a.EntrySpread⟩

instance : IsTrans Spread spreadOrder :=
  ⟨fun _ _ _ h1 h2 => le_trans h2 h1⟩

end arbitrageF

namespace arbitrage

/-- Concrete two-exchange quote map used by the C1 witness: Binance bids 4 and
asks 4, Mexc bids 1 and asks 2, so only the Binance-short/Mexc-long direction
is profitable. -/
def dataC1 : List (String × shared.TickerBidAsk) :=
  [("Binance", ⟨"SUSDT", "S/USDT:PERP", 4, 4, 1000000⟩),
   ("Mexc", ⟨"S_USDT", "S/USDT:PERP", 1, 2, 500⟩)]

/-- Concrete one-symbol price table used by the C1 witness. -/
def tableC1 : PriceTable := [("S/USDT:PERP", dataC1)]

/-- Concrete one-symbol price table used by the C2 witness. -/
def tableC2 : PriceTable :=
  [("S/USDT:PERP",
    [("Binance", ⟨"SUSDT", "S/USDT:PERP", 4, 4, 1000000⟩),
     ("Mexc", ⟨"S_USDT", "S/USDT:PERP", 1, 2, 500⟩)])]

/-- The single record `CalculateSpreads` emits on `tableC2`. -/
def spreadC2 : Spread :=
  { UnifiedSymbol := "S/USDT:PERP"
    ExchangeShort := "Binance"
    ExchangeLong := "Mexc"
    EntrySpread := 200 / 3
    OpenDiff := 2
    ExitSpread := -120
    ExitDiff := -3
    FundingSpread8h := none }

/-- Concrete data and table used by the C4 witness. -/
def dataC4 : List (String × shared.TickerBidAsk) :=
  [("Binance", ⟨"SUSDT", "S/USDT:PERP", 4, 4, 0⟩),
   ("Mexc", ⟨"S_USDT", "S/USDT:PERP", 1, 2, 0⟩)]

/-- Concrete one-symbol price table used by the C4 witness. -/
def tableC4 : PriceTable := [("S/USDT:PERP", dataC4)]

/-- Concrete price table used by the C6 witness: its two emitted opportunities
have entry spreads 200/3 ≈ 66.7 and 100, so thresholds 100 and 150 filter
differently. -/
def tableC6 : PriceTable :=
  [("S/USDT:PERP",
    [("Binance", ⟨"SUSDT", "S/USDT:PERP", 4, 4, 0⟩),
     ("Mexc", ⟨"S_USDT", "S/USDT:PERP", 1, 2, 0⟩)]),
   ("T/USDT:PERP",
    [("Binance", ⟨"TUSDT", "T/USDT:PERP", 6, 6, 0⟩),
     ("Mexc", ⟨"T_USDT", "T/USDT:PERP", 1, 2, 0⟩)])]

/-- Concrete two-exchange quote map used by the C9 counterexample: each symbol
quoting it emits exactly one opportunity with entry spread 100. -/
def dataC9 : List (String × shared.TickerBidAsk) :=
  [("Binance", ⟨"SUSDT", "S/USDT:PERP", 3, 3, 0⟩),
   ("Mexc", ⟨"S_USDT", "S/USDT:PERP", 1, 1, 0⟩)]

/-- One enumeration order of the C9 price table. -/
def tableC9a : PriceTable := [("A/USDT:PERP", dataC9), ("B/USDT:PERP", dataC9)]

/-- The other enumeration order of the same C9 price table. -/
def tableC9b : PriceTable := [("B/USDT:PERP", dataC9), ("A/USDT:PERP", dataC9)]

end arbitrage

namespace arbitrageF

/-- Concrete one-symbol price table used by the C3 witness. -/
def tableC3 : arbitrage.PriceTable :=
  [("S/USDT:PERP",
    [("Binance", ⟨"SUSDT", "S/USDT:PERP", 4, 4, 0⟩),
     ("Mexc", ⟨"S_USDT", "S/USDT:PERP", 1, 2, 0⟩)])]

/-- Binance funding rates used by the C3 witness: rate string "0.0001",
interval 8 hours. -/
def binanceRatesC3 : List (String × adapters.BinanceFundingRateDto) :=
  [("S/USDT:PERP", ⟨"SUSDT", "0.0001", 123, 8⟩)]

/-- Mexc funding rates used by the C3 witness: rate 3/10000, interval 4
hours. -/
def mexcRatesC3 : List (String × adapters.MexcFundingRateDto) :=
  [("S/USDT:PERP", ⟨"S_USDT", 3 / 10000, 456, 4⟩)]

/-- The single record the funding-enabled `CalculateSpreads` emits on
`tableC3` with the C3 funding inputs: the 8h funding spread is
`(1*(1/10000)*(8/8) + (-1)*(3/10000)*(8/4)) * 100 = -1/20`. -/
def spreadC3 : Spread :=
  { UnifiedSymbol := "S/USDT:PERP"
    ExchangeShort := "Binance"
    ExchangeLong := "Mexc"
    EntrySpread := 200 / 3
    OpenDiff := 2
    ExitSpread := -120
    ExitDiff := -3
    FundingSpread8h := some (-1 / 20)
    FundingRateShort := some ⟨1 / 10000, 8, 123⟩
    FundingRateLong := some ⟨3 / 10000, 4, 456⟩ }

end arbitrageF

namespace adapters

theorem mk_toList (s : String) : String.mk s.toList = s := rfl

theorem toList_append (s t : String) : (s ++ t).toList = s.toList ++ t.toList :=
  String.data_append s t

theorem toList_ne_nil {s : String} (h : s ≠ "") : s.toList ≠ [] := by
  intro hc
  exact h (by rw [← mk_toList s, hc])

theorem hasSuffix_append (b suff : String) : HasSuffix (b ++ suff) suff = true := by
  unfold HasSuffix
  rw [toList_append]
  exact decide_eq_true (List.suffix_append _ _)

theorem trimSuffix_append (b suff : String) : TrimSuffix (b ++ suff) suff = b := by
  unfold TrimSuffix
  rw [hasSuffix_append, if_pos rfl, toList_append, List.length_append,
    Nat.add_sub_cancel, List.take_left]
  exact mk_toList b

theorem unwrapBinance_append (b : String) :
    UnwrapBinanceSymbol (b ++ "USDT") = Except.ok (b ++ "/USDT:PERP") := by
  unfold UnwrapBinanceSymbol
  rw [hasSuffix_append, trimSuffix_append]
  simp

theorem unwrapMexc_append (b : String) :
    UnwrapMexcSymbol (b ++ "_USDT") = Except.ok (b ++ "/USDT:PERP") := by
  unfold UnwrapMexcSymbol
  rw [hasSuffix_append, trimSuffix_append]
  simp

theorem splitOn_slash (b : String) (hs : ¬ '/' ∈ b.toList) :
    (b ++ "/USDT:PERP").toList.splitOn '/' = [b.toList, "USDT:PERP".toList] := by
  have h1 : (b ++ "/USDT:PERP").toList = b.toList ++ '/' :: "USDT:PERP".toList := by
    rw [toList_append]; rfl
  rw [h1]
  show List.splitOnP (fun c => c == '/') _ = _
  have hxs : ∀ x ∈ b.toList, ¬((fun c => c == '/') x = true) := by
    intro x hx
    simp only [beq_iff_eq]
    intro hc
    exact hs (hc ▸ hx)
  have hrest : ∀ x ∈ "USDT:PERP".toList, ¬((fun c => c == '/') x = true) := by decide
  have h2 := List.splitOnP_first (fun c => c == '/') b.toList hxs '/' rfl "USDT:PERP".toList
  rw [h2, List.splitOnP_eq_single (fun c => c == '/') "USDT:PERP".toList hrest]

theorem wrapBinance_append (b : String) (hb : b ≠ "") (hs : ¬ '/' ∈ b.toList) :
    WrapBinanceSymbol (b ++ "/USDT:PERP") = Except.ok (b ++ "USDT") := by
  unfold WrapBinanceSymbol
  rw [splitOn_slash b hs]
  dsimp only
  rw [if_pos ⟨by simpa using toList_ne_nil hb, by decide, by decide⟩]
  have h2 : "USDT:PERP".toList.take ("USDT:PERP".toList.length - 5) = "USDT".toList := by decide
  rw [h2, ← toList_append, mk_toList]

theorem wrapMexc_append (b : String) (hb : b ≠ "") (hs : ¬ '/' ∈ b.toList) :
    WrapMexcSymbol (b ++ "/USDT:PERP") = Except.ok (b ++ "_USDT") := by
  unfold WrapMexcSymbol
  rw [splitOn_slash b hs]
  dsimp only
  rw [if_pos ⟨by simpa using toList_ne_nil hb, by decide, by decide⟩]
  have h2 : "USDT:PERP".toList.take ("USDT:PERP".toList.length - 5) = "USDT".toList := by decide
  rw [h2]
  have h3 : ('_' :: "USDT".toList) = "_USDT".toList := by decide
  rw [h3, ← toList_append, mk_toList]

/-- Claim C7: the symbol-normalization pair is reversible: for every exchange
symbol with supported quote currency (a nonempty base currency code, which
never contains a slash, followed by the USDT quote in each exchange's format)
`wrap(unwrap(s)) = s`, and for every syntactically valid unified symbol
`BASE/USDT:PERP` the composite `wrap(unwrap(wrap(S)))` equals `wrap(S)`
(idempotent past the first application), for both the Binance and the Mexc
wrap/unwrap pairs. -/
theorem wrap_unwrap_roundTrip (b : String) (hb : b ≠ "") (hs : ¬ '/' ∈ b.toList) :
    (UnwrapBinanceSymbol (b ++ "USDT")).bind WrapBinanceSymbol = Except.ok (b ++ "USDT") ∧
    (UnwrapMexcSymbol (b ++ "_USDT")).bind WrapMexcSymbol = Except.ok (b ++ "_USDT") ∧
    ((WrapBinanceSymbol (b ++ "/USDT:PERP")).bind UnwrapBinanceSymbol).bind WrapBinanceSymbol
      = WrapBinanceSymbol (b ++ "/USDT:PERP") ∧
    ((WrapMexcSymbol (b ++ "/USDT:PERP")).bind UnwrapMexcSymbol).bind WrapMexcSymbol
      = WrapMexcSymbol (b ++ "/USDT:PERP") := by
  refine ⟨?_, ?_, ?_, ?_⟩
  · rw [unwrapBinance_append]
    exact wrapBinance_append b hb hs
  · rw [unwrapMexc_append]
    exact wrapMexc_append b hb hs
  · rw [wrapBinance_append b hb hs]
    show (UnwrapBinanceSymbol (b ++ "USDT")).bind WrapBinanceSymbol = Except.ok (b ++ "USDT")
    rw [unwrapBinance_append]
    exact wrapBinance_append b hb hs
  · rw [wrapMexc_append b hb hs]
    show (UnwrapMexcSymbol (b ++ "_USDT")).bind WrapMexcSymbol = Except.ok (b ++ "_USDT")
    rw [unwrapMexc_append]
    exact wrapMexc_append b hb hs

/-- Witness for C7 at the concrete base currency `"BTC"`. -/
theorem wrap_unwrap_roundTrip_witness :
    (UnwrapBinanceSymbol ("BTC" ++ "USDT")).bind WrapBinanceSymbol
        = Except.ok ("BTC" ++ "USDT") ∧
    (UnwrapMexcSymbol ("BTC" ++ "_USDT")).bind WrapMexcSymbol
        = Except.ok ("BTC" ++ "_USDT") ∧
    ((WrapBinanceSymbol ("BTC" ++ "/USDT:PERP")).bind UnwrapBinanceSymbol).bind
        WrapBinanceSymbol = WrapBinanceSymbol ("BTC" ++ "/USDT:PERP") ∧
    ((WrapMexcSymbol ("BTC" ++ "/USDT:PERP")).bind UnwrapMexcSymbol).bind WrapMexcSymbol
      = WrapMexcSymbol ("BTC" ++ "/USDT:PERP") :=
  wrap_unwrap_roundTrip "BTC" (by decide) (by decide)

/-- Claim C8: for every input string, `UnwrapBinanceSymbol` fails iff the
string does not end in `"USDT"`, in which case the error is exactly
`ErrUnsupportedQuoteCurrency` (never any other error), and otherwise succeeds
with the prefix before the suffix concatenated with `"/USDT:PERP"`; likewise
`UnwrapMexcSymbol` with the `"_USDT"` suffix. -/
theorem unwrap_error_characterization (s : String) :
    (HasSuffix s "USDT" = false →
        UnwrapBinanceSymbol s = Except.error shared.GoError.ErrUnsupportedQuoteCurrency) ∧
    (HasSuffix s "USDT" = true →
        UnwrapBinanceSymbol s
          = Except.ok (String.mk (s.toList.take (s.toList.length - 4)) ++ "/USDT:PERP")) ∧
    (∀ e, UnwrapBinanceSymbol s = Except.error e →
        HasSuffix s "USDT" = false ∧ e = shared.GoError.ErrUnsupportedQuoteCurrency) ∧
    (HasSuffix s "_USDT" = false →
        UnwrapMexcSymbol s = Except.error shared.GoError.ErrUnsupportedQuoteCurrency) ∧
    (HasSuffix s "_USDT" = true →
        UnwrapMexcSymbol s
          = Except.ok (String.mk (s.toList.take (s.toList.length - 5)) ++ "/USDT:PERP")) ∧
    (∀ e, UnwrapMexcSymbol s = Except.error e →
        HasSuffix s "_USDT" = false ∧ e = shared.GoError.ErrUnsupportedQuoteCurrency) := by
  unfold UnwrapBinanceSymbol UnwrapMexcSymbol TrimSuffix
  refine ⟨fun h => by simp [h], fun h => by simp [h], ?_, fun h => by simp [h],
    fun h => by simp [h], ?_⟩
  · intro e
    rcases h : HasSuffix s "USDT" with _ | _ <;> simp [h]
    intro he
    exact he.symm
  · intro e
    rcases h : HasSuffix s "_USDT" with _ | _ <;> simp [h]
    intro he
    exact he.symm

/-- Witness for C8 at the concrete symbols `"BTCUSDT"` (Binance success, Mexc
failure: no `"_USDT"` suffix) and `"BTC_USDT"` (Mexc success). -/
theorem unwrap_error_characterization_witness :
    UnwrapBinanceSymbol "BTCUSDT"
        = Except.ok (String.mk ("BTCUSDT".toList.take ("BTCUSDT".toList.length - 4))
            ++ "/USDT:PERP") ∧
    UnwrapMexcSymbol "BTCUSDT" = Except.error shared.GoError.ErrUnsupportedQuoteCurrency ∧
    UnwrapMexcSymbol "BTC_USDT"
      = Except.ok (String.mk ("BTC_USDT".toList.take ("BTC_USDT".toList.length - 5))
          ++ "/USDT:PERP") :=
  ⟨(unwrap_error_characterization "BTCUSDT").2.1 (by decide),
    (unwrap_error_characterization "BTCUSDT").2.2.2.1 (by decide),
    (unwrap_error_characterization "BTC_USDT").2.2.2.2.1 (by decide)⟩

/-- Claim C10: the bare quote-currency string is accepted by unwrap rather
than rejected: `UnwrapBinanceSymbol "USDT"` and `UnwrapMexcSymbol "_USDT"`
both succeed with `"/USDT:PERP"`, a unified symbol with an empty BASE part
that does not match the canonical `BASE/QUOTE:PERP` grammar. -/
theorem unwrap_bare_quote_accepted :
    UnwrapBinanceSymbol "USDT" = Except.ok "/USDT:PERP" ∧
    UnwrapMexcSymbol "_USDT" = Except.ok "/USDT:PERP" ∧
    IsValidUnifiedSymbol "/USDT:PERP" = false :=
  ⟨rfl, rfl, rfl⟩

end adapters

namespace arbitrage

theorem mem_pairSpread {sp : Spread} {symbol a b : String} {ta tb : shared.TickerBidAsk} :
    sp ∈ pairSpread symbol a b ta tb ↔
      0 < entrySpreadCalc ta tb ∧
        sp = { UnifiedSymbol := symbol
               ExchangeShort := a
               ExchangeLong := b
               EntrySpread := entrySpreadCalc ta tb
               OpenDiff := ta.Bid - tb.Ask
               ExitSpread := exitSpreadCalc ta tb
               ExitDiff := tb.Bid - ta.Ask
               FundingSpread8h := none } := by
  unfold pairSpread
  split <;> simp_all

theorem mem_symbolSpreads {sp : Spread} {symbol : String}
    {d : List (String × shared.TickerBidAsk)} :
    sp ∈ symbolSpreads symbol d ↔
      ∃ i j, i < d.length ∧ j < d.length ∧ i ≠ j ∧
        sp ∈ pairSpread symbol ((d.map Prod.fst).getD i "") ((d.map Prod.fst).getD j "")
          (mapIndex d ((d.map Prod.fst).getD i ""))
          (mapIndex d ((d.map Prod.fst).getD j "")) := by
  unfold symbolSpreads
  split
  · rename_i hlen
    simp only [List.not_mem_nil, false_iff]
    rintro ⟨i, j, hi, hj, hij, _⟩
    omega
  · rename_i hlen
    simp only [List.mem_flatMap, List.mem_range, List.length_map]
    constructor
    · rintro ⟨i, hi, j, hj, hmem⟩
      by_cases hij : i = j
      · rw [if_pos hij] at hmem
        exact absurd hmem (List.not_mem_nil sp)
      · rw [if_neg hij] at hmem
        exact ⟨i, j, hi, hj, hij, hmem⟩
    · rintro ⟨i, j, hi, hj, hij, hmem⟩
      exact ⟨i, hi, j, hj, by rw [if_neg hij]; exact hmem⟩

theorem mem_calculateSpreads {sp : Spread} {tickers : PriceTable} :
    sp ∈ CalculateSpreads tickers ↔ ∃ p ∈ tickers, sp ∈ symbolSpreads p.1 p.2 := by
  unfold CalculateSpreads
  rw [(List.perm_insertionSort spreadOrder _).mem_iff]
  exact List.mem_flatMap

theorem unifiedSymbol_of_mem {sp : Spread} {symbol : String}
    {d : List (String × shared.TickerBidAsk)} (h : sp ∈ symbolSpreads symbol d) :
    sp.UnifiedSymbol = symbol := by
  rcases mem_symbolSpreads.mp h with ⟨i, j, _, _, _, hp⟩
  rcases mem_pairSpread.mp hp with ⟨_, rfl⟩
  rfl

theorem mapIndex_of_mem_names {d : List (String × shared.TickerBidAsk)} {A : String}
    (hA : A ∈ d.map Prod.fst) : ∃ e ∈ d, e.1 = A ∧ mapIndex d A = e.2 := by
  induction d with
  | nil => simp at hA
  | cons e d ih =>
    by_cases h : e.1 = A
    · refine ⟨e, List.mem_cons_self e d, h, ?_⟩
      unfold mapIndex
      rw [List.find?_cons_of_pos _ (by simp [h])]
    · have hA2 : A ∈ d.map Prod.fst := by
        rcases List.mem_map.mp hA with ⟨x, hx, hxa⟩
        rcases List.mem_cons.mp hx with rfl | hx2
        · exact absurd hxa h
        · exact List.mem_map.mpr ⟨x, hx2, hxa⟩
      rcases ih hA2 with ⟨x, hx, hxa, hmi⟩
      refine ⟨x, List.mem_cons_of_mem e hx, hxa, ?_⟩
      unfold mapIndex
      rw [List.find?_cons_of_neg _ (by simp [h])]
      exact hmi

theorem assoc_value_eq {α β : Type} {l : List (α × β)} (hnd : (l.map Prod.fst).Nodup)
    {a : α} {b c : β} (hb : (a, b) ∈ l) (hc : (a, c) ∈ l) : b = c := by
  induction l with
  | nil => simp at hb
  | cons e l ih =>
    rw [List.map_cons, List.nodup_cons] at hnd
    rcases List.mem_cons.mp hb with rfl | hb2
    · rcases List.mem_cons.mp hc with he | hc2
      · exact (congrArg Prod.snd he).symm
      · exact absurd (List.mem_map.mpr ⟨(a, c), hc2, rfl⟩) hnd.1
    · rcases List.mem_cons.mp hc with rfl | hc2
      · exact absurd (List.mem_map.mpr ⟨(a, b), hb2, rfl⟩) hnd.1
      · exact ih hnd.2 hb2 hc2

end arbitrage

namespace arbitrage

theorem entrySpreadCalc_pos_iff {ta tb : shared.TickerBidAsk} (hb : 0 ≤ tb.Ask) :
    0 < entrySpreadCalc ta tb ↔ tb.Ask < ta.Bid := by
  simp only [entrySpreadCalc]
  split_ifs with h1 h2
  · constructor
    · intro _
      linarith
    · intro _
      exact mul_pos (div_pos h1 h2) (by norm_num)
  · exact absurd (by linarith : (0:ℚ) < (ta.Bid + tb.Ask) / 2) h2
  · constructor
    · intro h
      linarith
    · intro h
      exact absurd (by linarith : (0:ℚ) < ta.Bid - tb.Ask) h1

/-- Claim C1: for every price table (with the Go-map key uniqueness and the
data-model invariant of nonnegative bid/ask), every symbol it maps, and every
ordered pair of distinct exchange names (A, B) quoting that symbol,
`CalculateSpreads` emits a record with `ExchangeShort = A` and
`ExchangeLong = B` iff the computed entry spread is strictly positive, which
holds iff `bid(A) > ask(B)`; the emission test for (A, B) depends only on that
ordered pair's own quotes, independent of the (B, A) test. -/
theorem calculateSpreads_emission_iff (tickers : PriceTable) (symbol A B : String)
    (d : List (String × shared.TickerBidAsk))
    (hmem : (symbol, d) ∈ tickers)
    (houter : (tickers.map Prod.fst).Nodup)
    (hA : A ∈ d.map Prod.fst) (hB : B ∈ d.map Prod.fst) (hAB : A ≠ B)
    (hnn : ∀ e ∈ d, 0 ≤ e.2.Bid ∧ 0 ≤ e.2.Ask) :
    ((∃ sp ∈ CalculateSpreads tickers,
        sp.UnifiedSymbol = symbol ∧ sp.ExchangeShort = A ∧ sp.ExchangeLong = B) ↔
      0 < entrySpreadCalc (mapIndex d A) (mapIndex d B)) ∧
    (0 < entrySpreadCalc (mapIndex d A) (mapIndex d B) ↔
      (mapIndex d B).Ask < (mapIndex d A).Bid) := by
  have hBnn : 0 ≤ (mapIndex d B).Ask := by
    rcases mapIndex_of_mem_names hB with ⟨e, he, _, hmi⟩
    rw [hmi]
    exact (hnn e he).2
  refine ⟨⟨?_, ?_⟩, entrySpreadCalc_pos_iff hBnn⟩
  · rintro ⟨sp, hsp, hsym, hshort, hlong⟩
    rcases mem_calculateSpreads.mp hsp with ⟨p, hp, hmem2⟩
    have hps := unifiedSymbol_of_mem hmem2
    have hp1 : p.1 = symbol := by rw [← hps, hsym]
    have hd : p.2 = d := by
      refine assoc_value_eq houter ?_ hmem
      rw [← hp1]
      exact hp
    rw [hp1, hd] at hmem2
    rcases mem_symbolSpreads.mp hmem2 with ⟨i, j, hi, hj, hij, hpair⟩
    rcases mem_pairSpread.mp hpair with ⟨hpos, rfl⟩
    simp only at hshort hlong
    rw [← hshort, ← hlong]
    exact hpos
  · intro hpos
    rcases List.mem_iff_get.mp hA with ⟨⟨i, hi⟩, hgi⟩
    rcases List.mem_iff_get.mp hB with ⟨⟨j, hj⟩, hgj⟩
    have hgdi : (d.map Prod.fst).getD i "" = A := by
      rw [List.getD_eq_getElem _ _ hi]
      exact hgi
    have hgdj : (d.map Prod.fst).getD j "" = B := by
      rw [List.getD_eq_getElem _ _ hj]
      exact hgj
    have hij : i ≠ j := by
      intro h
      subst h
      rw [hgdi] at hgdj
      exact hAB hgdj
    have hlen := List.length_map d (Prod.fst (α := String) (β := shared.TickerBidAsk))
    refine ⟨_, mem_calculateSpreads.mpr
      ⟨(symbol, d), hmem, mem_symbolSpreads.mpr
        ⟨i, j, by exact hlen ▸ hi, by exact hlen ▸ hj, hij, mem_pairSpread.mpr
          ⟨by rw [hgdi, hgdj]; exact hpos, rfl⟩⟩⟩, rfl, hgdi, hgdj⟩

/-- Witness for C1 on the concrete table `tableC1`: the (Binance, Mexc) pair
is emitted and its entry spread is positive since bid(Binance) = 4 exceeds
ask(Mexc) = 2. -/
theorem calculateSpreads_emission_iff_witness :
    ((∃ sp ∈ CalculateSpreads tableC1,
        sp.UnifiedSymbol = "S/USDT:PERP" ∧ sp.ExchangeShort = "Binance" ∧
          sp.ExchangeLong = "Mexc") ↔
      0 < entrySpreadCalc (mapIndex dataC1 "Binance") (mapIndex dataC1 "Mexc")) ∧
    (0 < entrySpreadCalc (mapIndex dataC1 "Binance") (mapIndex dataC1 "Mexc") ↔
      (mapIndex dataC1 "Mexc").Ask < (mapIndex dataC1 "Binance").Bid) :=
  calculateSpreads_emission_iff tableC1 "S/USDT:PERP" "Binance" "Mexc" dataC1
    (by decide) (by decide) (by decide) (by decide) (by decide) (by decide)

end arbitrage

namespace arbitrage

theorem entrySpreadCalc_specForm (ta tb : shared.TickerBidAsk) :
    entrySpreadCalc ta tb =
      if ta.Bid - tb.Ask ≤ 0 ∨ (ta.Bid + tb.Ask) / 2 ≤ 0 then 0
      else (ta.Bid - tb.Ask) / ((ta.Bid + tb.Ask) / 2) * 100 := by
  simp only [entrySpreadCalc]
  by_cases h1 : ta.Bid - tb.Ask > 0
  · by_cases h2 : (ta.Bid + tb.Ask) / 2 > 0
    · rw [if_pos h1, if_pos h2, if_neg (by push_neg; constructor <;> linarith)]
    · rw [if_pos h1, if_neg h2, if_pos (Or.inr (by linarith))]
  · rw [if_neg h1, if_pos (Or.inl (by linarith))]

theorem exitSpreadCalc_specForm (ta tb : shared.TickerBidAsk) :
    exitSpreadCalc ta tb =
      if (tb.Bid + ta.Ask) / 2 ≤ 0 then 0
      else (tb.Bid - ta.Ask) / ((tb.Bid + ta.Ask) / 2) * 100 := by
  simp only [exitSpreadCalc]
  by_cases h : (tb.Bid + ta.Ask) / 2 > 0
  · rw [if_pos h, if_neg (by linarith)]
  · rw [if_neg h, if_pos (by linarith)]

/-- Claim C2: every record emitted by `CalculateSpreads` carries exactly the
specified field values for its ordered pair: `OpenDiff = bid(A) - ask(B)`;
`EntrySpread` is 0 when `OpenDiff ≤ 0` or the average open price is
nonpositive and otherwise `OpenDiff / avg * 100`; `ExitDiff = bid(B) -
ask(A)`; `ExitSpread` is computed regardless of the sign of `ExitDiff`, 0 only
when the average exit price is nonpositive.  (In this exact-rational embedding
every division is guarded by a positive-average test, so the computation is
total: nothing can raise, and no infinity/NaN value even exists.) -/
theorem calculateSpreads_field_formulas (tickers : PriceTable) (sp : Spread)
    (hsp : sp ∈ CalculateSpreads tickers) :
    ∃ d, (sp.UnifiedSymbol, d) ∈ tickers ∧
      sp.ExchangeShort ∈ d.map Prod.fst ∧ sp.ExchangeLong ∈ d.map Prod.fst ∧
      sp.OpenDiff
          = (mapIndex d sp.ExchangeShort).Bid - (mapIndex d sp.ExchangeLong).Ask ∧
      sp.EntrySpread
          = (if (mapIndex d sp.ExchangeShort).Bid - (mapIndex d sp.ExchangeLong).Ask ≤ 0 ∨
                ((mapIndex d sp.ExchangeShort).Bid + (mapIndex d sp.ExchangeLong).Ask) / 2 ≤ 0
             then 0
             else ((mapIndex d sp.ExchangeShort).Bid - (mapIndex d sp.ExchangeLong).Ask) /
                (((mapIndex d sp.ExchangeShort).Bid + (mapIndex d sp.ExchangeLong).Ask) / 2)
                * 100) ∧
      sp.ExitDiff
          = (mapIndex d sp.ExchangeLong).Bid - (mapIndex d sp.ExchangeShort).Ask ∧
      sp.ExitSpread
        = (if ((mapIndex d sp.ExchangeLong).Bid + (mapIndex d sp.ExchangeShort).Ask) / 2 ≤ 0
           then 0
           else ((mapIndex d sp.ExchangeLong).Bid - (mapIndex d sp.ExchangeShort).Ask) /
              (((mapIndex d sp.ExchangeLong).Bid + (mapIndex d sp.ExchangeShort).Ask) / 2)
              * 100) := by
  rcases mem_calculateSpreads.mp hsp with ⟨p, hp, hmem2⟩
  rcases mem_symbolSpreads.mp hmem2 with ⟨i, j, hi, hj, hij, hpair⟩
  rcases mem_pairSpread.mp hpair with ⟨hpos, rfl⟩
  refine ⟨p.2, hp, ?_, ?_, ?_, ?_, ?_, ?_⟩
  · have hi2 : i < (p.2.map Prod.fst).length := by simpa using hi
    rw [List.getD_eq_getElem _ _ hi2]
    exact List.getElem_mem hi2
  · have hj2 : j < (p.2.map Prod.fst).length := by simpa using hj
    rw [List.getD_eq_getElem _ _ hj2]
    exact List.getElem_mem hj2
  · rfl
  · exact entrySpreadCalc_specForm _ _
  · rfl
  · exact exitSpreadCalc_specForm _ _

end arbitrage

namespace arbitrage

unseal Rat.add Rat.sub Rat.mul Rat.inv in
/-- Witness for C2 on the concrete table `tableC2` and its emitted record
`spreadC2`. -/
theorem calculateSpreads_field_formulas_witness :
    ∃ d, (spreadC2.UnifiedSymbol, d) ∈ tableC2 ∧
      spreadC2.ExchangeShort ∈ d.map Prod.fst ∧ spreadC2.ExchangeLong ∈ d.map Prod.fst ∧
      spreadC2.OpenDiff
          = (mapIndex d spreadC2.ExchangeShort).Bid - (mapIndex d spreadC2.ExchangeLong).Ask ∧
      spreadC2.EntrySpread
          = (if (mapIndex d spreadC2.ExchangeShort).Bid
                  - (mapIndex d spreadC2.ExchangeLong).Ask ≤ 0 ∨
                ((mapIndex d spreadC2.ExchangeShort).Bid
                  + (mapIndex d spreadC2.ExchangeLong).Ask) / 2 ≤ 0
             then 0
             else ((mapIndex d spreadC2.ExchangeShort).Bid
                  - (mapIndex d spreadC2.ExchangeLong).Ask) /
                (((mapIndex d spreadC2.ExchangeShort).Bid
                  + (mapIndex d spreadC2.ExchangeLong).Ask) / 2) * 100) ∧
      spreadC2.ExitDiff
          = (mapIndex d spreadC2.ExchangeLong).Bid - (mapIndex d spreadC2.ExchangeShort).Ask ∧
      spreadC2.ExitSpread
        = (if ((mapIndex d spreadC2.ExchangeLong).Bid
                + (mapIndex d spreadC2.ExchangeShort).Ask) / 2 ≤ 0
           then 0
           else ((mapIndex d spreadC2.ExchangeLong).Bid
                - (mapIndex d spreadC2.ExchangeShort).Ask) /
              (((mapIndex d spreadC2.ExchangeLong).Bid
                + (mapIndex d spreadC2.ExchangeShort).Ask) / 2) * 100) :=
  calculateSpreads_field_formulas tableC2 spreadC2 (by decide)

end arbitrage

namespace arbitrage

theorem flatMap_ite_eq_map_filter {β : Type} {l : List ℕ} {i : ℕ} {g : ℕ → β} :
    (l.flatMap fun j => if i = j then [] else [g j])
      = (l.filter fun j => !decide (i = j)).map g := by
  induction l with
  | nil => rfl
  | cons a l ih =>
    by_cases h : i = a
    · subst h
      simp [ih]
    · simp [h, ih]

theorem length_filter_ne {n i : ℕ} (hi : i < n) :
    ((List.range n).filter fun j => !decide (i = j)).length = n - 1 := by
  induction n with
  | zero => omega
  | succ n ih =>
    rw [List.range_succ, List.filter_append, List.length_append]
    by_cases h : i = n
    · have h1 : (List.range n).filter (fun j => !decide (i = j)) = List.range n := by
        rw [List.filter_eq_self]
        intro a ha
        simp only [Bool.not_eq_eq_eq_not, Bool.not_true, decide_eq_false_iff_not]
        intro hc
        rw [← hc] at ha
        exact absurd (List.mem_range.mp ha) (by omega)
      have h2 : [n].filter (fun j => !decide (i = j)) = [] := by simp [h]
      rw [h1, h2]
      simp
    · have hi2 : i < n := by omega
      have h2 : [n].filter (fun j => !decide (i = j)) = [n] := by simp [h]
      rw [ih hi2, h2]
      simp
      omega

theorem length_evaluatedPairs (d : List (String × shared.TickerBidAsk)) :
    (evaluatedPairs d).length = d.length * (d.length - 1) := by
  unfold evaluatedPairs
  rw [List.length_flatMap]
  have hinner : ∀ i ∈ List.range (d.map Prod.fst).length,
      (List.length ∘ fun i => (List.range (d.map Prod.fst).length).flatMap fun j =>
          if i = j then []
          else [((d.map Prod.fst).getD i "", (d.map Prod.fst).getD j "")]) i
        = (d.map Prod.fst).length - 1 := by
    intro i hi
    show ((List.range (d.map Prod.fst).length).flatMap fun j =>
        if i = j then [] else [((d.map Prod.fst).getD i "", (d.map Prod.fst).getD j "")]).length
      = (d.map Prod.fst).length - 1
    rw [flatMap_ite_eq_map_filter, List.length_map, length_filter_ne (List.mem_range.mp hi)]
  rw [List.map_congr_left hinner]
  rw [List.map_const', List.sum_replicate, List.length_range, smul_eq_mul, List.length_map]

theorem length_pairSpread_le (symbol a b : String) (ta tb : shared.TickerBidAsk) :
    (pairSpread symbol a b ta tb).length ≤ 1 := by
  unfold pairSpread
  split <;> simp

theorem length_flatMap_le_length_flatMap {α β γ : Type} (l : List α) (f : α → List β)
    (g : α → List γ) (h : ∀ a ∈ l, (f a).length ≤ (g a).length) :
    (l.flatMap f).length ≤ (l.flatMap g).length := by
  induction l with
  | nil => simp
  | cons a l ih =>
    rw [List.flatMap_cons, List.flatMap_cons, List.length_append, List.length_append]
    exact Nat.add_le_add (h a (List.mem_cons_self a l))
      (ih fun x hx => h x (List.mem_cons_of_mem a hx))

theorem length_symbolSpreads_le (symbol : String) (d : List (String × shared.TickerBidAsk)) :
    (symbolSpreads symbol d).length ≤ (evaluatedPairs d).length := by
  unfold symbolSpreads evaluatedPairs
  split
  · simp
  · refine length_flatMap_le_length_flatMap _ _ _ (fun i _ => ?_)
    refine length_flatMap_le_length_flatMap _ _ _ (fun j _ => ?_)
    by_cases h : i = j
    · simp [h]
    · rw [if_neg h, if_neg h]
      simpa using length_pairSpread_le symbol _ _ _ _

theorem countP_calculateSpreads_symbol (tickers : PriceTable) (symbol : String)
    (d : List (String × shared.TickerBidAsk)) (hmem : (symbol, d) ∈ tickers)
    (houter : (tickers.map Prod.fst).Nodup) :
    (CalculateSpreads tickers).countP (fun sp => sp.UnifiedSymbol == symbol)
      = (symbolSpreads symbol d).countP (fun sp => sp.UnifiedSymbol == symbol) := by
  unfold CalculateSpreads
  rw [(List.perm_insertionSort spreadOrder _).countP_eq]
  induction tickers with
  | nil => simp at hmem
  | cons p t ih =>
    rw [List.flatMap_cons, List.countP_append]
    rw [List.map_cons, List.nodup_cons] at houter
    rcases List.mem_cons.mp hmem with heq | hmem2
    · subst heq
      have h0 : (t.flatMap fun p => symbolSpreads p.1 p.2).countP
          (fun sp => sp.UnifiedSymbol == symbol) = 0 := by
        rw [List.countP_eq_zero]
        intro sp hsp
        rcases List.mem_flatMap.mp hsp with ⟨q, hq, hq2⟩
        have hu := unifiedSymbol_of_mem hq2
        simp only [beq_iff_eq, hu]
        intro hc
        apply houter.1
        rw [← hc]
        exact List.mem_map.mpr ⟨q, hq, rfl⟩
      rw [h0, Nat.add_zero]
    · have h0 : (symbolSpreads p.1 p.2).countP (fun sp => sp.UnifiedSymbol == symbol) = 0 := by
        rw [List.countP_eq_zero]
        intro sp hsp
        have hu := unifiedSymbol_of_mem hsp
        simp only [beq_iff_eq, hu]
        intro hc
        apply houter.1
        rw [hc]
        exact List.mem_map.mpr ⟨(symbol, d), hmem2, rfl⟩
      rw [h0, Nat.zero_add]
      exact ih hmem2 houter.2

/-- Claim C4: for every symbol in the price table (with Go-map key
uniqueness), the double loop evaluates exactly `N x (N-1)` ordered exchange
pairs where `N` is that symbol's exchange count, the number of opportunities
emitted for the symbol is at most `N x (N-1)`, and a symbol quoted by exactly
one exchange contributes zero opportunities; all of this for arbitrary `N`,
with no step assuming exactly two exchanges. -/
theorem calculateSpreads_pair_counts (tickers : PriceTable) (symbol : String)
    (d : List (String × shared.TickerBidAsk)) (hmem : (symbol, d) ∈ tickers)
    (houter : (tickers.map Prod.fst).Nodup) :
    (evaluatedPairs d).length = d.length * (d.length - 1) ∧
    (CalculateSpreads tickers).countP (fun sp => sp.UnifiedSymbol == symbol)
        ≤ d.length * (d.length - 1) ∧
    (d.length = 1 → symbolSpreads symbol d = []) := by
  refine ⟨length_evaluatedPairs d, ?_,
    fun h1 => by unfold symbolSpreads; rw [if_pos (by omega)]⟩
  rw [countP_calculateSpreads_symbol tickers symbol d hmem houter]
  calc (symbolSpreads symbol d).countP (fun sp => sp.UnifiedSymbol == symbol)
      ≤ (symbolSpreads symbol d).length := List.countP_le_length _
    _ ≤ (evaluatedPairs d).length := length_symbolSpreads_le symbol d
    _ = d.length * (d.length - 1) := length_evaluatedPairs d

unseal Rat.add Rat.sub Rat.mul Rat.inv in
/-- Witness for C4 on the concrete table `tableC4` (N = 2). -/
theorem calculateSpreads_pair_counts_witness :
    (evaluatedPairs dataC4).length = dataC4.length * (dataC4.length - 1) ∧
    (CalculateSpreads tableC4).countP (fun sp => sp.UnifiedSymbol == "S/USDT:PERP")
        ≤ dataC4.length * (dataC4.length - 1) ∧
    (dataC4.length = 1 → symbolSpreads "S/USDT:PERP" dataC4 = []) :=
  calculateSpreads_pair_counts tableC4 "S/USDT:PERP" dataC4 (by decide) (by decide)

end arbitrage

namespace arbitrage

/-- Claim C5: the list returned by `CalculateSpreads` is sorted in
non-increasing order of `EntrySpread`: for every input price table and every
pair of positions i < j in the output (adjacent ones in particular), the entry
spread at position i is ≥ the entry spread at position j. -/
theorem calculateSpreads_sorted_desc (tickers : PriceTable) :
    (CalculateSpreads tickers).Pairwise
      (fun s1 s2 => s2.EntrySpread ≤ s1.EntrySpread) := by
  unfold CalculateSpreads
  exact List.sorted_insertionSort spreadOrder _

/-- Claim C6 (spec-modelled threshold filter): with a minimum-spread threshold
configured, the filtered engine output contains exactly the opportunities
whose entry spread reaches the threshold (everything below it is dropped), and
raising the threshold t1 ≤ t2 never increases the result set: the t2 output is
a subset of the t1 output and no longer than it. -/
theorem thresholdFilter_drops_and_monotone (tickers : PriceTable) (t1 t2 : ℚ)
    (ht : t1 ≤ t2) :
    (∀ sp, sp ∈ applyThresholdFilter (some t1) (CalculateSpreads tickers) ↔
        sp ∈ CalculateSpreads tickers ∧ t1 ≤ sp.EntrySpread) ∧
    (∀ sp, sp ∈ applyThresholdFilter (some t2) (CalculateSpreads tickers) →
        sp ∈ applyThresholdFilter (some t1) (CalculateSpreads tickers)) ∧
    (applyThresholdFilter (some t2) (CalculateSpreads tickers)).length ≤
      (applyThresholdFilter (some t1) (CalculateSpreads tickers)).length := by
  refine ⟨?_, ?_, ?_⟩
  · intro sp
    simp [applyThresholdFilter, List.mem_filter]
  · intro sp hsp
    simp only [applyThresholdFilter, List.mem_filter, decide_eq_true_eq] at hsp ⊢
    exact ⟨hsp.1, le_trans ht hsp.2⟩
  · have hff : applyThresholdFilter (some t2) (CalculateSpreads tickers)
        = (applyThresholdFilter (some t1) (CalculateSpreads tickers)).filter
            (fun sp => decide (t2 ≤ sp.EntrySpread)) := by
      show (CalculateSpreads tickers).filter _
        = ((CalculateSpreads tickers).filter _).filter _
      rw [List.filter_filter]
      refine List.filter_congr fun sp _ => ?_
      rcases h2 : decide (t2 ≤ sp.EntrySpread) with _ | _
      · simp
      · simp only [decide_eq_true_eq] at h2
        simp [h2, le_trans ht h2]
    rw [hff]
    exact (List.filter_sublist _).length_le

unseal Rat.add Rat.sub Rat.mul Rat.inv in
/-- Witness for C6 on the concrete table `tableC6` with thresholds 100 and
150: the two emitted entry spreads are 200/3 and 100, so the t1 = 100 filter
keeps one record and the t2 = 150 filter keeps none. -/
theorem thresholdFilter_drops_and_monotone_witness :
    (∀ sp, sp ∈ applyThresholdFilter (some 100) (CalculateSpreads tableC6) ↔
        sp ∈ CalculateSpreads tableC6 ∧ 100 ≤ sp.EntrySpread) ∧
    (∀ sp, sp ∈ applyThresholdFilter (some 150) (CalculateSpreads tableC6) →
        sp ∈ applyThresholdFilter (some 100) (CalculateSpreads tableC6)) ∧
    (applyThresholdFilter (some 150) (CalculateSpreads tableC6)).length ≤
      (applyThresholdFilter (some 100) (CalculateSpreads tableC6)).length :=
  thresholdFilter_drops_and_monotone tableC6 100 150 (by decide)

end arbitrage

namespace arbitrage

unseal Rat.add Rat.sub Rat.mul Rat.inv in
/-- Counterexample to C9 as stated: `tableC9a` and `tableC9b` are enumerations
of the same price table (a permutation — equal as Go maps), yet
`CalculateSpreads` returns differently ordered results, because Go's map
iteration order is randomized and records with equal entry spreads (here both
100) keep their encounter order through the sort. -/
theorem calculateSpreads_order_dependent :
    tableC9a.Perm tableC9b ∧ CalculateSpreads tableC9a ≠ CalculateSpreads tableC9b := by
  constructor
  · decide
  · decide

/-- Claim C9 (amended): `CalculateSpreads` depends on nothing outside its
argument, and on equal price tables it returns the same records up to
reordering: enumerating the same table in a different (Go-map-randomized)
iteration order permutes the output, equality of the full ordered output is
only guaranteed when the iteration order is the same. -/
theorem calculateSpreads_perm_invariant (t1 t2 : PriceTable) (h : t1.Perm t2) :
    (CalculateSpreads t1).Perm (CalculateSpreads t2) := by
  unfold CalculateSpreads
  refine ((List.perm_insertionSort spreadOrder _).trans ?_).trans
    (List.perm_insertionSort spreadOrder _).symm
  exact h.flatMap_right _

unseal Rat.add Rat.sub Rat.mul Rat.inv in
/-- Witness for the amended C9 on the two concrete enumerations `tableC9a` and
`tableC9b`. -/
theorem calculateSpreads_perm_invariant_witness :
    (CalculateSpreads tableC9a).Perm (CalculateSpreads tableC9b) :=
  calculateSpreads_perm_invariant tableC9a tableC9b (by decide)

end arbitrage

namespace arbitrageF

theorem memF_pairSpread {sp : Spread} {symbol a b : String} {ta tb : shared.TickerBidAsk}
    {bfr : List (String × adapters.BinanceFundingRateDto)}
    {mfr : List (String × adapters.MexcFundingRateDto)} :
    sp ∈ pairSpread symbol a b ta tb bfr mfr ↔
      0 < arbitrage.entrySpreadCalc ta tb ∧
        sp = { UnifiedSymbol := symbol
               ExchangeShort := a
               ExchangeLong := b
               EntrySpread := arbitrage.entrySpreadCalc ta tb
               OpenDiff := ta.Bid - tb.Ask
               ExitSpread := arbitrage.exitSpreadCalc ta tb
               ExitDiff := tb.Bid - ta.Ask
               FundingSpread8h := fundingSpread8hCalc
                 (getFundingRateInfo symbol a bfr mfr) (getFundingRateInfo symbol b bfr mfr)
               FundingRateShort := getFundingRateInfo symbol a bfr mfr
               FundingRateLong := getFundingRateInfo symbol b bfr mfr } := by
  unfold pairSpread
  split <;> simp_all

theorem memF_calculateSpreads {sp : Spread} {tickers : arbitrage.PriceTable}
    {bfr : List (String × adapters.BinanceFundingRateDto)}
    {mfr : List (String × adapters.MexcFundingRateDto)} :
    sp ∈ CalculateSpreads tickers bfr mfr ↔
      ∃ p ∈ tickers, ∃ i j, i < p.2.length ∧ j < p.2.length ∧ i ≠ j ∧
        sp ∈ pairSpread p.1 ((p.2.map Prod.fst).getD i "") ((p.2.map Prod.fst).getD j "")
          (arbitrage.mapIndex p.2 ((p.2.map Prod.fst).getD i ""))
          (arbitrage.mapIndex p.2 ((p.2.map Prod.fst).getD j "")) bfr mfr := by
  unfold CalculateSpreads
  rw [(List.perm_insertionSort spreadOrder _).mem_iff, List.mem_flatMap]
  constructor
  · rintro ⟨p, hp, hmem⟩
    refine ⟨p, hp, ?_⟩
    rcases Nat.lt_or_ge p.2.length 2 with hlen | hlen
    · rw [if_pos hlen] at hmem
      exact absurd hmem (List.not_mem_nil sp)
    · rw [if_neg (by omega)] at hmem
      simp only [List.mem_flatMap, List.mem_range, List.length_map] at hmem
      rcases hmem with ⟨i, hi, j, hj, hmem2⟩
      by_cases hij : i = j
      · rw [if_pos hij] at hmem2
        exact absurd hmem2 (List.not_mem_nil sp)
      · rw [if_neg hij] at hmem2
        exact ⟨i, j, hi, hj, hij, hmem2⟩
  · rintro ⟨p, hp, i, j, hi, hj, hij, hmem⟩
    refine ⟨p, hp, ?_⟩
    rw [if_neg (by omega)]
    simp only [List.mem_flatMap, List.mem_range, List.length_map]
    exact ⟨i, hi, j, hj, by rw [if_neg hij]; exact hmem⟩

theorem fundingSpread8hCalc_isSome_iff (fa fb : Option shared.FundingRateInfo) :
    (fundingSpread8hCalc fa fb).isSome = true ↔
      ∃ a b, fa = some a ∧ fb = some b ∧ 0 < a.Interval ∧ 0 < b.Interval := by
  rcases fa with _ | a <;> rcases fb with _ | b <;> simp [fundingSpread8hCalc]

theorem fundingSpread8hCalc_eq_of {fa fb : Option shared.FundingRateInfo}
    {a b : shared.FundingRateInfo} (ha : fa = some a) (hb : fb = some b)
    (hia : 0 < a.Interval) (hib : 0 < b.Interval) :
    fundingSpread8hCalc fa fb
      = some ((1 * a.Rate * (8 / (a.Interval : ℚ))
          + -1 * b.Rate * (8 / (b.Interval : ℚ))) * 100) := by
  subst ha hb
  simp [fundingSpread8hCalc, hia, hib]

/-- Claim C3: in the funding-enabled calculator, every emitted opportunity
carries `FundingSpread8h` iff both its short and its long side have a funding
record (per `getFundingRateInfo`) with a positive funding interval, and when
present the value is `(pnlShort + pnlLong) * 100` with
`pnlShort = +1 * rate * (8/interval)` and `pnlLong = -1 * rate *
(8/interval)`; when either side's funding data is absent the field is `none`
(omitted), not zero. -/
theorem calculateSpreadsF_funding_presence (tickers : arbitrage.PriceTable)
    (bfr : List (String × adapters.BinanceFundingRateDto))
    (mfr : List (String × adapters.MexcFundingRateDto)) (sp : Spread)
    (hsp : sp ∈ CalculateSpreads tickers bfr mfr) :
    (sp.FundingSpread8h.isSome = true ↔
      ∃ a b, getFundingRateInfo sp.UnifiedSymbol sp.ExchangeShort bfr mfr = some a ∧
        getFundingRateInfo sp.UnifiedSymbol sp.ExchangeLong bfr mfr = some b ∧
        0 < a.Interval ∧ 0 < b.Interval) ∧
    (∀ a b, getFundingRateInfo sp.UnifiedSymbol sp.ExchangeShort bfr mfr = some a →
      getFundingRateInfo sp.UnifiedSymbol sp.ExchangeLong bfr mfr = some b →
      0 < a.Interval → 0 < b.Interval →
      sp.FundingSpread8h
        = some ((1 * a.Rate * (8 / (a.Interval : ℚ))
            + -1 * b.Rate * (8 / (b.Interval : ℚ))) * 100)) := by
  rcases memF_calculateSpreads.mp hsp with ⟨p, hp, i, j, hi, hj, hij, hpair⟩
  rcases memF_pairSpread.mp hpair with ⟨hpos, rfl⟩
  exact ⟨fundingSpread8hCalc_isSome_iff _ _,
    fun a b ha hb hia hib => fundingSpread8hCalc_eq_of ha hb hia hib⟩

unseal Rat.add Rat.sub Rat.mul Rat.inv in
/-- Witness for C3 on the concrete table `tableC3` with the funding inputs
`binanceRatesC3`/`mexcRatesC3` and the emitted record `spreadC3`. -/
theorem calculateSpreadsF_funding_presence_witness :
    (spreadC3.FundingSpread8h.isSome = true ↔
      ∃ a b, getFundingRateInfo spreadC3.UnifiedSymbol spreadC3.ExchangeShort
          binanceRatesC3 mexcRatesC3 = some a ∧
        getFundingRateInfo spreadC3.UnifiedSymbol spreadC3.ExchangeLong
          binanceRatesC3 mexcRatesC3 = some b ∧
        0 < a.Interval ∧ 0 < b.Interval) ∧
    (∀ a b, getFundingRateInfo spreadC3.UnifiedSymbol spreadC3.ExchangeShort
        binanceRatesC3 mexcRatesC3 = some a →
      getFundingRateInfo spreadC3.UnifiedSymbol spreadC3.ExchangeLong
        binanceRatesC3 mexcRatesC3 = some b →
      0 < a.Interval → 0 < b.Interval →
      spreadC3.FundingSpread8h
        = some ((1 * a.Rate * (8 / (a.Interval : ℚ))
            + -1 * b.Rate * (8 / (b.Interval : ℚ))) * 100)) :=
  calculateSpreadsF_funding_presence tableC3 binanceRatesC3 mexcRatesC3 spreadC3 (by decide)

end arbitrageF
